import Mathlib

/-!
Verification development for the personal-finance-monitoring pipeline.

This file gives a shallow embedding, in Lean 4, of the data-ingestion and
forecasting pipeline of the repository (src/src/data.py, src/src/forecasting.py)
and proves, or refutes, the frozen specification claims about it.

Modelling conventions:
* pandas DataFrames become Lean lists of rows; a raw statement file is its
  filename plus its header line and record lines, already split on ';'.
* calendar dates are explicit (year, month, day) triples; day arithmetic uses
  the standard civil-calendar day count, so gaps in days are exact.
* machine floats never carry load-bearing behaviour in the claims settled
  here; `amount`/`balance` strings are kept as (comma-to-dot transformed)
  strings in the ingestion model, with `float(...)`-parseability checked, and
  balances in the forecasting model are integers (the claims' concrete values
  are integral and the pipeline only copies or subtracts them).
* fallible Python code (exceptions) becomes `Except String`; a `.error`
  result models an exception propagating out of `preprocessing`/`sarima`, in
  which case nothing was written to disk.
* `os.listdir` order, environment variables and `datetime.now()` are
  parameters of the embedded functions.
-/

namespace PFM

/-! ### Calendar dates -/

/-- A calendar date (year, month, day), as produced by
`pd.to_datetime(..., format='%d/%m/%Y')`. -/
structure CalDate where
  y : Nat
  m : Nat
  d : Nat
deriving DecidableEq, Repr

/-- Leap-year test of the Gregorian calendar. -/
def isLeap (y : Nat) : Bool :=
  (y % 4 == 0 && y % 100 != 0) || y % 400 == 0

/-- Number of days of month `m` in year `y`. -/
def daysInMonth (y m : Nat) : Nat :=
  if m == 2 then (if isLeap y then 29 else 28)
  else if m == 4 || m == 6 || m == 9 || m == 11 then 30 else 31

/-- Civil-calendar day count (days since 0000-03-01, shifted era algorithm);
used so that differences of dates are exact day gaps, as in
`(ts_b - ts_a).dt.days`. -/
def CalDate.toDays (dt : CalDate) : Nat :=
  let yy := if dt.m ≤ 2 then dt.y - 1 else dt.y
  let era := yy / 400
  let yoe := yy % 400
  let mp := (dt.m + 9) % 12
  let doy := (153 * mp + 2) / 5 + (dt.d - 1)
  let doe := yoe * 365 + yoe / 4 - yoe / 100 + doy
  era * 146097 + doe

/-- Day gap `b - a` in days, as an integer. -/
def dayGap (a b : CalDate) : Int :=
  (b.toDays : Int) - (a.toDays : Int)

/-- Order on `Option CalDate` used when sorting a datetime column:
`none` models `NaT`, which pandas places last. -/
def optDateLe : Option CalDate → Option CalDate → Bool
  | some a, some b => decide (a.toDays ≤ b.toDays)
  | some _, none => true
  | none, none => true
  | none, some _ => false

/-! ### Character-list string primitives

`str.lower`, `str.startswith`, `in`/`str.contains` and `str.endswith` are
modelled on the underlying character lists, so that every use is a plain
structurally recursive Lean function. -/

/-- ASCII lower-casing of one character (as `str.lower` does per character). -/
def lowChar (c : Char) : Char :=
  if 65 ≤ c.toNat && c.toNat ≤ 90 then Char.ofNat (c.toNat + 32) else c

/-- `s.lower()`. -/
def lowerStr (s : String) : String := ⟨s.data.map lowChar⟩

/-- `needle` occurs at the start of `hay` (`str.startswith`). -/
def strStarts : List Char → List Char → Bool
  | _, [] => true
  | [], _ :: _ => false
  | c :: cs, n :: ns => c == n && strStarts cs ns

/-- `needle` occurs somewhere inside `hay` (`needle in hay` /
`str.contains` with a literal pattern). -/
def containsSub : List Char → List Char → Bool
  | [], needle => needle.isEmpty
  | c :: cs, needle => strStarts (c :: cs) needle || containsSub cs needle

/-- Substring test on strings. -/
def strContains (hay needle : String) : Bool := containsSub hay.data needle.data

/-- `s.endswith(suf)`. -/
def strEndsWith (s suf : String) : Bool :=
  strStarts s.data.reverse suf.data.reverse

/-- Total lexicographic comparison of character lists by code point, the
order Python/pandas use to sort string values. -/
def charsLe : List Char → List Char → Bool
  | [], _ => true
  | _ :: _, [] => false
  | a :: as, b :: bs => if a.toNat = b.toNat then charsLe as bs else decide (a.toNat < b.toNat)

/-! ### Stable insertion sort

`DataFrame.sort_values` on several key columns, and on the single `date`
column inside the ingestion pipeline, is modelled by a stable sort: an
element is inserted after all earlier elements whose key is `le`-below it,
so elements with equal keys keep their original relative order (pandas uses
a stable lexsort for multi-column keys). -/

/-- Insert `x` into a sorted list, before the first element `y` with
`le x y`. -/
def insertLe (le : α → α → Bool) (x : α) : List α → List α
  | [] => [x]
  | y :: ys => if le x y then x :: y :: ys else y :: insertLe le x ys

/-- Stable insertion sort by the boolean relation `le`. -/
def insSort (le : α → α → Bool) : List α → List α
  | [] => []
  | x :: xs => insertLe le x (insSort le xs)

/-! ### Transactions -/

/-- One row of the unified transaction table (canonical schema of the spec's
Transaction).  `date` is `none` for an unparseable (`NaT`) date; `amount`
and `balance` are kept as their (comma-to-dot normalized) string forms. -/
structure Txn where
  date : Option CalDate
  sender : String
  recipient : String
  description : String
  amount : String
  balance : String
  is_recurring : Bool := false
  is_essential : Bool := false
  concept : String := "Others"
deriving DecidableEq, Repr

/-! ### FileRegistry: `get_files` (src/src/data.py lines 10-16) -/

/-- The file register: an ordered association of filename to timestamp,
modelling the JSON object `{filename: {"timestamp": ...}}` (Python dicts
preserve insertion order). -/
abbrev Register := List (String × String)

/-- Key set of the register (`file not in register` checks dict keys). -/
def registerKeys (r : Register) : List String := r.map (·.1)

/-- `get_files(reprocess)`: `all_files` is the `os.listdir` result, and
`registerFile` is the register file's content, `none` when
`REGISTER_PATH` does not exist.  Translates lines 10-16 of data.py. -/
def get_files (reprocess : Bool) (all_files : List String)
    (registerFile : Option Register) : List String × Register :=
  match reprocess, registerFile with
  | true, _ => (all_files, [])
  | false, none => (all_files, [])
  | false, some register =>
      (all_files.filter (fun file => !((registerKeys register).contains file)), register)

/-! ### RecurrenceDetector: `flag_recurring` (src/src/data.py lines 18-31) -/

/-- The fixed marker phrase of rule (a). -/
def markerPhrase : String := "european direct debit creditor"

/-- Rule (a): `df['description'].str.lower().str.startswith(marker)`. -/
def baseFlag (t : Txn) : Bool :=
  strStarts (lowerStr t.description).data markerPhrase.data

/-- `days_diff.between(27, 33)`: pandas `Series.between` is inclusive at
BOTH ends by default; comparisons against the missing gap of a group's
first row (`NaN`) are false. -/
def inWindowIncl (a b : Option CalDate) : Bool :=
  match a, b with
  | some a, some b => decide (27 ≤ dayGap a b) && decide (dayGap a b ≤ 33)
  | _, _ => false

/-- The claim's half-open window `[27, 33)` (written from the claim's
words, to compare against the code's inclusive window). -/
def inWindowClaimed (a b : Option CalDate) : Bool :=
  match a, b with
  | some a, some b => decide (27 ≤ dayGap a b) && decide (dayGap a b < 33)
  | _, _ => false

/-- Sort key of `df.sort_values(['recipient', 'date'])`: recipient
(code-point lexicographic), then date with `NaT` last. -/
def keyLe (a b : Nat × Txn) : Bool :=
  if a.2.recipient = b.2.recipient then optDateLe a.2.date b.2.date
  else charsLe a.2.recipient.data b.2.recipient.data

/-- Date-only comparison on indexed rows (used to state the per-group sort
of the spec's description). -/
def dateOnlyLe (a b : Nat × Txn) : Bool := optDateLe a.2.date b.2.date

/-- The element strictly preceding the row labelled `i` in `l`, if any:
`groupby('recipient')['date'].shift(1)` gives, for each row, the previous
row of its group, and a group is the label-preserving sublist with one
recipient value. -/
def prevAtGo : Option (Nat × Txn) → List (Nat × Txn) → Nat → Option (Nat × Txn)
  | _, [], _ => none
  | prev, x :: xs, i => if x.1 = i then prev else prevAtGo (some x) xs i

/-- Previous element of label `i` inside the list `l`. -/
def prevAt (l : List (Nat × Txn)) (i : Nat) : Option (Nat × Txn) :=
  prevAtGo none l i

/-- `flag_recurring(df)` (lines 18-31 of data.py): the copy's `date` column
is already parsed; rule (a) from the description, rule (b) from the gap to
the previous same-recipient row after sorting by `(recipient, date)`, OR-ed
and realigned to the original row labels (the `.loc[df_sorted.index]`
assignment writes each sorted row's flag back to its original label). -/
def flag_recurring (txns : List Txn) : List Bool :=
  let sorted := insSort keyLe txns.enum
  txns.enum.map (fun it =>
    baseFlag it.2 ||
      match prevAt (sorted.filter (fun jt => jt.2.recipient == it.2.recipient)) it.1 with
      | some p => inWindowIncl p.2.date it.2.date
      | none => false)

/-- The recurrence algorithm exactly as the claim describes it, with the
window `w` a parameter: per recipient, the group is taken from the batch in
original order, sorted by `date` alone, and each row's gap to its group
predecessor is tested with `w`; the result is OR-ed with rule (a) in the
batch's original row order. -/
def flag_recurring_descr (w : Option CalDate → Option CalDate → Bool)
    (txns : List Txn) : List Bool :=
  txns.enum.map (fun it =>
    baseFlag it.2 ||
      match prevAt (insSort dateOnlyLe
          (txns.enum.filter (fun jt => jt.2.recipient == it.2.recipient))) it.1 with
      | some p => w p.2.date it.2.date
      | none => false)

/-- `flag_recurring` as the caller observes it: the function's single
argument next to its result.  Line 19 (`df = df.copy()`) rebinds the local
name `df` to a fresh copy, so lines 20-31 (the `date` re-parse and all
later reads) act on `dfCopy` only and the caller's frame is returned as it
came in. -/
def flag_recurring_run (input : List Txn) : List Txn × List Bool :=
  let dfCopy := input
  let dfCopy := dfCopy.map (fun t => { t with date := t.date })
  (input, flag_recurring dfCopy)

/-! ### CategoryRuleEngine: `apply_fixed_rules` (src/src/data.py lines 33-53) -/

/-- One entry of the `fixed_rules` dict: category name, keyword list,
essential flag. -/
structure Rule where
  concept : String
  keywords : List String
  is_essential : Bool
deriving DecidableEq, Repr

/-- The `fixed_rules` table, in its declared (insertion) order.  The
commented-out `Utilities` entry of the source is absent here as it is in
the running code. -/
def fixed_rules : List Rule :=
  [⟨"Salary", ["arhs"], true⟩,
   ⟨"Rent", ["despes"], true⟩,
   ⟨"Groceries", ["delhaize", "carrefour", "crf exp", "finest globe belliard"], true⟩,
   ⟨"Insurance", ["FMSB-FSMB"], true⟩,
   ⟨"Savings", ["estalvis"], true⟩,
   ⟨"Grooming", ["sportoase", "xxl nutrition", "apotheek", "knapper"], true⟩,
   ⟨"Transport", ["stib", "sncb", "nmbs", "bahn"], true⟩,
   ⟨"Cantine", ["cantine"], false⟩,
   ⟨"Subscriptions", ["kbc plus"], false⟩]

/-- `df['description'].str.lower().str.contains('|'.join(keywords))`: the
keywords contain no regex metacharacters, so the regex alternation matches
exactly when some keyword occurs verbatim (case-sensitively) in the
lower-cased description. -/
def ruleMatches (r : Rule) (t : Txn) : Bool :=
  r.keywords.any (fun kw => strContains (lowerStr t.description) kw)

/-- The rule loop body on one row: overwrite `concept`/`is_essential` when
the rule's mask selects the row. -/
def stepRule (t : Txn) (r : Rule) : Txn :=
  if ruleMatches r t then { t with concept := r.concept, is_essential := r.is_essential } else t

/-- One pass of the rule loop body over the whole frame. -/
def applyRule (r : Rule) (txns : List Txn) : List Txn :=
  txns.map (fun t => stepRule t r)

/-- `apply_fixed_rules(df)` (lines 33-53): sets `is_recurring` from
`flag_recurring`, resets `is_essential`/`concept` to their defaults, then
runs every rule in declared order; the function mutates the frame in
place, modelled by returning the updated frame. -/
def apply_fixed_rules (txns : List Txn) : List Txn :=
  let txns1 := (txns.zip (flag_recurring txns)).map
    (fun tr => { tr.1 with is_recurring := tr.2 })
  let txns2 := txns1.map (fun t => { t with is_essential := false, concept := "Others" })
  fixed_rules.foldl (fun acc r => applyRule r acc) txns2

/-- The last rule of `rules` (in declared order) matching `t`, if any:
the claim's "later rules win" oracle. -/
def lastMatchingRule (rules : List Rule) (t : Txn) : Option Rule :=
  rules.foldl (fun acc r => if ruleMatches r t then some r else acc) none

/-- The `(concept, is_essential)` pair the claim predicts for a
transaction: the last matching rule's data, or the defaults. -/
def predictedLabel (t : Txn) : String × Bool :=
  match lastMatchingRule fixed_rules t with
  | some r => (r.concept, r.is_essential)
  | none => ("Others", false)

/-! ### StatementNormalizer and `preprocessing` (src/src/data.py lines 55-112) -/

/-- One raw statement file: its filename, its header line and its record
lines, each already split on the `';'` delimiter. -/
structure RawFile where
  name : String
  header : List String
  records : List (List String)
deriving DecidableEq, Repr

/-- A parsed tabular frame (header names plus string-valued rows). -/
structure Frame where
  header : List String
  rows : List (List String)
deriving DecidableEq, Repr

/-- `pd.read_csv(file, sep=';', usecols=range(ncols), index_col=False)`:
keeps the first `ncols` columns by position; a file with fewer columns
than `ncols` raises. -/
def read_csv_usecols (f : RawFile) (ncols : Nat) : Except String Frame :=
  if f.header.length < ncols then .error "Usecols do not match columns"
  else .ok ⟨f.header.take ncols, f.records.map (fun r => r.take ncols)⟩

/-- `pd.concat(frames, ignore_index=True)`: raises on an empty list; rows
are appended in file order.  Column alignment across differing headers is
not modelled (the pipeline always produces identical truncated headers);
a batch with differing headers is mapped to an error. -/
def concatFrames : List Frame → Except String Frame
  | [] => .error "No objects to concatenate"
  | f :: fs =>
      if fs.all (fun g => g.header == f.header) then
        .ok ⟨f.header, ((f :: fs).map Frame.rows).flatten⟩
      else .error "column alignment of differing headers not modelled"

/-- Lines 60-66: the usable column count is the first pending file's header
length, and only filenames ending in `'.csv'` are read, each truncated to
that many columns, then concatenated. -/
def batchConcat (files : List RawFile) : Except String Frame :=
  match files with
  | [] => .error "list index out of range"
  | f0 :: _ => do
      let frames ← (files.filter (fun rf => strEndsWith rf.name ".csv")).mapM
        (fun rf => read_csv_usecols rf f0.header.length)
      concatFrames frames

/-- Lines 67-70: bank-specific header renaming. -/
def renameHeader (c : String) : String :=
  if c == "Accountnumber" then "sender"
  else if c == "Counterparty account number" then "recipient"
  else c

/-- Lines 71-83: the fixed list of dropped columns (`errors='ignore'`). -/
def dropList : List String :=
  ["Heading", "Name", "Currency", "Value date", "Credit", "Debit",
   "Counterparty BIC", "Counterparty name", "Counterparty address",
   "Standard-format reference", "Free-format reference"]

/-- Drop the `dropList` columns from header and rows (cells are matched to
column names positionally). -/
def dropColumns (fr : Frame) : Frame :=
  ⟨fr.header.filter (fun c => !(dropList.contains c)),
   fr.rows.map (fun r =>
     ((fr.header.zip r).filter (fun p => !(dropList.contains p.1))).map (·.2))⟩

/-- Line 84: `col.lower().replace(' ', '_')`, character by character. -/
def lowerUnderscore (c : String) : String :=
  ⟨c.data.map (fun ch => if ch == ' ' then '_' else lowChar ch)⟩

/-- Cell of `row` under column `c` of `hdr`; a missing column models the
`KeyError` a `df['c']` access would raise. -/
def getCell (hdr : List String) (row : List String) (c : String) : Except String String :=
  match hdr.findIdx? (· == c) with
  | some i =>
      match row.get? i with
      | some v => .ok v
      | none => .error "row shorter than header"
  | none => .error ("KeyError: " ++ c)

/-- Split a character list on `'/'` (the accumulator holds the current
field reversed). -/
def splitSlashGo : List Char → List Char → List (List Char)
  | acc, [] => [acc.reverse]
  | acc, c :: cs =>
      if c == '/' then acc.reverse :: splitSlashGo [] cs
      else splitSlashGo (c :: acc) cs

/-- Decimal value of a nonempty all-digit character list, else `none`. -/
def digitsNat? (cs : List Char) : Option Nat :=
  if cs.isEmpty || !(cs.all Char.isDigit) then none
  else some (cs.foldl (fun n c => n * 10 + (c.toNat - 48)) 0)

/-- Line 85: `pd.to_datetime(.., format='%d/%m/%Y', dayfirst=True,
errors='coerce')`: day/month/year split on `'/'`, calendar-validated,
`none` (NaT) on failure instead of raising. -/
def parseDMY (s : String) : Option CalDate :=
  match splitSlashGo [] s.data with
  | [ds, ms, ys] =>
      match digitsNat? ds, digitsNat? ms, digitsNat? ys with
      | some d, some m, some y =>
          if 1 ≤ m && m ≤ 12 && 1 ≤ d && d ≤ daysInMonth y m then some ⟨y, m, d⟩
          else none
      | _, _, _ => none
  | _ => none

/-- Lines 87-88: `','` to `'.'` in the numeric strings. -/
def replaceCommaDot (s : String) : String :=
  ⟨s.data.map (fun ch => if ch == ',' then '.' else ch)⟩

/-- `astype(float)`-parseability of a string: optional sign, digits with at
most one decimal point, at least one digit (the grammar the pipeline's
values use; exotic float literals are out of scope). -/
def isFloatStr (s : String) : Bool :=
  let cs := if s.data.head? == some '-' then s.data.tail else s.data
  cs.any (·.isDigit) &&
    cs.all (fun ch => ch.isDigit || ch == '.') &&
    (cs.filter (· == '.')).length ≤ 1

/-- Lines 90-99: sender-suffix remapping; the two configured suffixes come
from the environment leaving unmapped senders untouched (the mapping dict
iterates General first, Savings second). -/
def replace_sender (genSuf savSuf : String) (v : String) : String :=
  if strEndsWith v genSuf then "General"
  else if strEndsWith v savSuf then "Savings"
  else v

/-- Extract one canonical transaction from a normalized row (the column
accesses `df['date']`, `df['sender']`, ... of the source). -/
def rowToTxn (hdr : List String) (row : List String) : Except String Txn := do
  let dateS ← getCell hdr row "date"
  let sender ← getCell hdr row "sender"
  let recipient ← getCell hdr row "recipient"
  let description ← getCell hdr row "description"
  let amount ← getCell hdr row "amount"
  let balance ← getCell hdr row "balance"
  .ok { date := parseDMY dateS, sender := sender, recipient := recipient,
        description := description, amount := amount, balance := balance }

/-- Lines 67-99: rename, drop, lowercase headers, parse dates (coercing
failures to NaT), sort ascending by date (NaT last), parse the numeric
columns (aborting on a malformed value), apply the fixed rules and remap
senders.  The row-wise steps are applied on extracted records in the same
order the source applies them column-wise. -/
def normalizeBatch (genSuf savSuf : String) (fr : Frame) : Except String (List Txn) := do
  let fr1 : Frame := ⟨fr.header.map renameHeader, fr.rows⟩
  let fr2 := dropColumns fr1
  let fr3 : Frame := ⟨fr2.header.map lowerUnderscore, fr2.rows⟩
  let txns0 ← fr3.rows.mapM (rowToTxn fr3.header)
  let txns1 := insSort (fun a b => optDateLe a.date b.date) txns0
  if txns1.all (fun t =>
      isFloatStr (replaceCommaDot t.amount) && isFloatStr (replaceCommaDot t.balance)) then
    let txns2 := txns1.map (fun t =>
      { t with amount := replaceCommaDot t.amount, balance := replaceCommaDot t.balance })
    let txns3 := apply_fixed_rules txns2
    .ok (txns3.map (fun t => { t with sender := replace_sender genSuf savSuf t.sender }))
  else .error "ParseError: could not convert string to float"

/-- `load()` (lines 115-119): reads the persisted table and keeps only the
`'General'` rows (the date re-parse of the CSV round-trip is lossless in
this model). -/
def load (table : List Txn) : List Txn :=
  table.filter (fun t => t.sender == "General")

/-- The flat-file state `preprocessing` reads and writes: the raw
directory's files in `os.listdir` order, the register file and the
persisted transaction table (each `none` when the file does not exist). -/
structure SysState where
  rawFiles : List RawFile
  registerFile : Option Register
  transactionsFile : Option (List Txn)
deriving DecidableEq, Repr

/-- The pending files of a state under a `reprocess` flag. -/
def pendingFiles (reprocess : Bool) (st : SysState) : List RawFile :=
  st.rawFiles.filter (fun rf =>
    ((get_files reprocess (st.rawFiles.map RawFile.name) st.registerFile).1).contains rf.name)

/-- `register[file] = {...}`: Python dict assignment (update in place, or
append a new key at the end). -/
def insertRegister (r : Register) (name ts : String) : Register :=
  if (registerKeys r).contains name then
    r.map (fun p => if p.1 == name then (name, ts) else p)
  else r ++ [(name, ts)]

/-- `preprocessing(reprocess)` (lines 55-112) as a transition on the flat
files; `ts` is `datetime.now().isoformat()` and `genSuf`/`savSuf` the two
account-suffix environment values.  An `.error` result models an exception
escaping the function, in which case no file was written.  With no pending
files the function logs and returns with no writes. -/
def preprocessing (reprocess : Bool) (genSuf savSuf ts : String)
    (st : SysState) : Except String SysState :=
  match pendingFiles reprocess st with
  | [] => .ok st
  | f0 :: rest =>
      match batchConcat (f0 :: rest) with
      | .error e => .error e
      | .ok df =>
          match normalizeBatch genSuf savSuf df with
          | .error e => .error e
          | .ok txns =>
              match (if reprocess then Except.ok txns
                     else match st.transactionsFile with
                       | some table => Except.ok (load table ++ txns)
                       | none => Except.error "FileNotFoundError: transactions.csv") with
              | .error e => .error e
              | .ok newTable =>
                  .ok { st with
                    transactionsFile := some newTable,
                    registerFile := some (((f0 :: rest).map RawFile.name).foldl
                      (fun r n => insertRegister r n ts)
                      (get_files reprocess (st.rawFiles.map RawFile.name) st.registerFile).2) }

/-! ### ForecastEngine: the deterministic front of `sarima`
(src/src/forecasting.py lines 53-62)

The statistical model fit and its forecasts (lines 71-96) are external
numerical code (statsmodels); the claims settled here are decided before
the model is ever reached, so only the series construction is embedded.
Balances are integers (the pipeline only copies and subtracts them). -/

/-- Month counter of a date (for enumerating month ends). -/
def monthIdx (dt : CalDate) : Nat := dt.y * 12 + (dt.m - 1)

/-- Last day of the month with counter `k`. -/
def monthEndDate (k : Nat) : CalDate :=
  ⟨k / 12, k % 12 + 1, daysInMonth (k / 12) (k % 12 + 1)⟩

/-- `pd.date_range(start, end, freq='ME')`: every month-end date lying
inside the closed span `[start, end]`. -/
def dateRangeME (start finish : CalDate) : List CalDate :=
  ((List.range (monthIdx finish + 1 - monthIdx start)).map
      (fun i => monthEndDate (monthIdx start + i))).filter
    (fun dt => decide (start.toDays ≤ dt.toDays) && decide (dt.toDays ≤ finish.toDays))

/-- Collapse consecutive equal dates keeping the LAST value
(`balance.groupby(balance.index).last()` on a sorted series). -/
def dedupLast : List (CalDate × Int) → List (CalDate × Int)
  | [] => []
  | [x] => [x]
  | x :: y :: rest =>
      if x.1 = y.1 then dedupLast (y :: rest) else x :: dedupLast (y :: rest)

/-- Lines 54-55: `df.set_index('date')['balance'].sort_index()` followed by
the duplicate-date collapse; the sort is modelled stable so "last" is the
last of the input order among equal dates. -/
def balanceSeries (data : List (CalDate × Int)) : List (CalDate × Int) :=
  dedupLast (insSort (fun a b => decide (a.1.toDays ≤ b.1.toDays)) data)

/-- Exact-date lookup in the balance series (`reindex` matches labels
exactly; it performs no nearest/forward matching). -/
def lookupDate (s : List (CalDate × Int)) (dt : CalDate) : Option Int :=
  (s.find? (fun p => p.1 == dt)).map (·.2)

/-- `balance.reindex(full_index)`: one entry per grid date, `none` (NaN)
where the grid date is not an observed date. -/
def reindexGrid (s : List (CalDate × Int)) (grid : List CalDate) :
    List (CalDate × Option Int) :=
  grid.map (fun dt => (dt, lookupDate s dt))

/-- `.ffill()` along the (reindexed) series, with `carry` the value
propagated into the head. -/
def ffillGo (carry : Option Int) : List (CalDate × Option Int) → List (CalDate × Option Int)
  | [] => []
  | (dt, v) :: rest =>
      match v with
      | some x => (dt, some x) :: ffillGo (some x) rest
      | none => (dt, carry) :: ffillGo carry rest

/-- `.fillna(0.0)`. -/
def fill0 (l : List (CalDate × Option Int)) : List (CalDate × Int) :=
  l.map (fun p => (p.1, p.2.getD 0))

/-- Lines 53-59: the `observed_cumulative` series.  An empty input makes
`balance.index.min()` a `NaT` and `pd.date_range` then raises. -/
def observedCumulative (data : List (CalDate × Int)) :
    Except String (List (CalDate × Int)) :=
  match (balanceSeries data).head?, (balanceSeries data).getLast? with
  | some first, some last =>
      .ok (fill0 (ffillGo none (reindexGrid (balanceSeries data) (dateRangeME first.1 last.1))))
  | _, _ => .error "ValueError: Neither start nor end can be NaT"

/-- Tail first-differences against the previous entry (helper of
`diffFill`). -/
def diffFillGo : (CalDate × Int) → List (CalDate × Int) → List (CalDate × Int)
  | _, [] => []
  | p, y :: ys => (y.1, y.2 - p.2) :: diffFillGo y ys

/-- `observed_cumulative.diff().fillna(first)`: first differences with the
head entry set to `first`. -/
def diffFill : List (CalDate × Int) → Int → List (CalDate × Int)
  | [], _ => []
  | x :: rest, f => (x.1, f) :: diffFillGo x rest

/-- Lines 53-62: everything `sarima` computes before the model fit —
`observed_cumulative` and `period_amounts`.  `observed_cumulative.iloc[0]`
on an empty series raises `IndexError` (line 61) before line 91's
emptiness guard is ever reached. -/
def sarima_pre (data : List (CalDate × Int)) :
    Except String (List (CalDate × Int) × List (CalDate × Int)) := do
  let obs ← observedCumulative data
  match obs.head? with
  | none => .error "IndexError: single positional indexer is out-of-bounds"
  | some h => .ok (obs, diffFill obs h.2)

/-- The most recent observed balance at or before `dt`
(used to state the claim's forward-fill semantics). -/
def lastObsLe (s : List (CalDate × Int)) (dt : CalDate) : Option Int :=
  ((s.filter (fun p => decide (p.1.toDays ≤ dt.toDays))).getLast?).map (·.2)

/-- Modelled from the claim's words: `observed_cumulative` as the claim
describes it — each grid point takes the most recent earlier-or-equal
observed balance (true forward fill from the irregular observations), with
leading gaps 0.0. -/
def observedCumulative_claimed (data : List (CalDate × Int)) :
    Except String (List (CalDate × Int)) :=
  let bal := balanceSeries data
  match bal.head?, bal.getLast? with
  | some first, some last =>
      .ok ((dateRangeME first.1 last.1).map (fun g => (g, (lastObsLe bal g).getD 0)))
  | _, _ => .error "ValueError: Neither start nor end can be NaT"

/-- First `some` of a list of options (`none` if there is none). -/
def optOr : Option Int → Option Int → Option Int
  | some x, _ => some x
  | none, y => y

/-- First defined value in a list of options. -/
def firstSome : List (Option Int) → Option Int
  | [] => none
  | x :: xs => optOr x (firstSome xs)

/-- Closed-form description of what the code's resampling computes: the
value at a grid point `g` (with `seen` the grid points before it) is the
balance observed at the latest grid point up to and including `g` that
coincides EXACTLY with an observed date — observations falling between
grid points are dropped, not forward-filled. -/
def resampleSpecGo (s : List (CalDate × Int)) (seen : List CalDate) :
    List CalDate → List (CalDate × Option Int)
  | [] => []
  | g :: rest =>
      (g, firstSome (((seen ++ [g]).reverse).map (lookupDate s))) ::
        resampleSpecGo s (seen ++ [g]) rest

/-- The grid-aligned resampling spec over a whole grid, with missing
values (no exactly-matching grid point yet) as 0. -/
def resampleSpec (s : List (CalDate × Int)) (grid : List CalDate) : List (CalDate × Int) :=
  fill0 (resampleSpecGo s [] grid)

/-! ### Concrete instances used by the claim analyses -/

/-- The raw bank header of the statement files used in the examples. -/
def rawHdr : List String :=
  ["Accountnumber", "Date", "Counterparty account number", "Description", "Amount", "Balance"]

/-- A well-formed one-row raw statement file. -/
def fileA : RawFile :=
  ⟨"a.csv", rawHdr, [["BE0001230056", "01/01/2026", "X9", "despeses gener", "5000,00", "5000,00"]]⟩

/-- A pending file that is not a `.csv` and is never parsed. -/
def fileB : RawFile := ⟨"b.txt", ["junk"], [["junkrow"]]⟩

/-- A previously persisted `Savings` transaction. -/
def savRow : Txn :=
  { date := some ⟨2025, 12, 1⟩, sender := "Savings", recipient := "Z",
    description := "old sav", amount := "10.0", balance := "10.0" }

/-- A previously persisted `General` transaction. -/
def genRow : Txn :=
  { date := some ⟨2025, 12, 2⟩, sender := "General", recipient := "Z",
    description := "old gen", amount := "20.0", balance := "20.0" }

/-- The transaction `fileA`'s row normalizes to (suffixes "56"/"99",
description matching the `Rent` rule). -/
def rentRow : Txn :=
  { date := some ⟨2026, 1, 1⟩, sender := "General", recipient := "X9",
    description := "despeses gener", amount := "5000.00", balance := "5000.00",
    is_recurring := false, is_essential := true, concept := "Rent" }

/-- State before an incremental run: one new raw file, no register yet, a
persisted table holding a `Savings` row and a `General` row. -/
def stC1 : SysState := ⟨[fileA], none, some [savRow, genRow]⟩

/-- State before an incremental run whose pending files are a well-formed
`.csv` and a non-`.csv` file. -/
def stC6 : SysState := ⟨[fileA, fileB], some [], some []⟩

/-- The two-transaction forecasting example of the spec (dates with their
balances). -/
def exData : List (CalDate × Int) := [(⟨2026, 1, 1⟩, 5000), (⟨2026, 2, 1⟩, 3500)]

/-- Recurrence example: first transaction to recipient `X`. -/
def txX1 : Txn :=
  { date := some ⟨2026, 1, 1⟩, sender := "s", recipient := "X",
    description := "alpha", amount := "1", balance := "1" }

/-- Recurrence example: second transaction to `X`, exactly 33 days later. -/
def txX2 : Txn :=
  { date := some ⟨2026, 2, 3⟩, sender := "s", recipient := "X",
    description := "beta", amount := "1", balance := "1" }

/-- A three-column csv file (its header fixes the batch's column count). -/
def fileW3 : RawFile := ⟨"w3.csv", ["A", "B", "C"], [["1", "2", "3"]]⟩

/-- A four-column csv file: its extra column must be ignored. -/
def fileW4 : RawFile := ⟨"w4.csv", ["A", "B", "C", "D"], [["4", "5", "6", "7"]]⟩

/-- A non-csv file in the same batch: contributes no rows. -/
def fileWt : RawFile := ⟨"w.txt", ["A", "B", "C"], [["x", "y", "z"]]⟩

/-! ## Theorems -/

/-! ### Generic facts about the stable insertion sort -/

theorem mem_insertLe {le : α → α → Bool} (x a : α) (l : List α) :
    a ∈ insertLe le x l ↔ a = x ∨ a ∈ l := by
  induction l with
  | nil => simp [insertLe]
  | cons y ys ih =>
      by_cases h : le x y = true
      · simp [insertLe, h]
      · simp [insertLe, h, ih]
        tauto

theorem mem_insSort {le : α → α → Bool} (a : α) (l : List α) :
    a ∈ insSort le l ↔ a ∈ l := by
  induction l with
  | nil => simp [insSort]
  | cons x xs ih =>
      rw [insSort, mem_insertLe]
      simp [ih]

theorem pairwise_insertLe {le : α → α → Bool}
    (htrans : ∀ a b c, le a b = true → le b c = true → le a c = true)
    (htot : ∀ a b, le a b = true ∨ le b a = true)
    (x : α) {l : List α} (hl : l.Pairwise (fun a b => le a b = true)) :
    (insertLe le x l).Pairwise (fun a b => le a b = true) := by
  induction l with
  | nil => simp [insertLe]
  | cons y ys ih =>
      rcases List.pairwise_cons.mp hl with ⟨hy, hys⟩
      by_cases h : le x y = true
      · simp only [insertLe, h, if_true]
        refine List.pairwise_cons.mpr ⟨?_, hl⟩
        intro b hb
        rcases List.mem_cons.mp hb with rfl | hb
        · exact h
        · exact htrans x y b h (hy b hb)
      · simp only [insertLe, h, if_false]
        refine List.pairwise_cons.mpr ⟨?_, ih hys⟩
        intro b hb
        rcases (mem_insertLe x b ys).mp hb with h' | hb
        · rw [h']
          rcases htot x y with h' | h'
          · exact absurd h' h
          · exact h'
        · exact hy b hb

theorem pairwise_insSort {le : α → α → Bool}
    (htrans : ∀ a b c, le a b = true → le b c = true → le a c = true)
    (htot : ∀ a b, le a b = true ∨ le b a = true) (l : List α) :
    (insSort le l).Pairwise (fun a b => le a b = true) := by
  induction l with
  | nil => simp [insSort]
  | cons x xs ih => exact pairwise_insertLe htrans htot x ih

theorem insertLe_eq_cons {le : α → α → Bool} {x : α} {l : List α}
    (h : ∀ z ∈ l, le x z = true) : insertLe le x l = x :: l := by
  cases l with
  | nil => rfl
  | cons y ys => simp [insertLe, h y (by simp)]

theorem filter_insertLe {le : α → α → Bool}
    (htrans : ∀ a b c, le a b = true → le b c = true → le a c = true)
    (p : α → Bool) (x : α) {l : List α}
    (hl : l.Pairwise (fun a b => le a b = true)) :
    (insertLe le x l).filter p =
      if p x then insertLe le x (l.filter p) else l.filter p := by
  induction l with
  | nil => by_cases hp : p x = true <;> simp [insertLe, hp]
  | cons y ys ih =>
      rcases List.pairwise_cons.mp hl with ⟨hy, hys⟩
      by_cases h : le x y = true
      · simp only [insertLe, h, if_true]
        by_cases hp : p x = true
        · by_cases hq : p y = true
          · simp [List.filter_cons, hp, hq, insertLe, h]
          · simp only [List.filter_cons, hp, hq, if_true, if_false, Bool.false_eq_true]
            refine (insertLe_eq_cons ?_).symm
            intro z hz
            rcases List.mem_filter.mp hz with ⟨hz, _⟩
            exact htrans x y z h (hy z hz)
        · simp [List.filter_cons, hp]
      · simp only [insertLe, h, if_false]
        by_cases hq : p y = true <;> by_cases hp : p x = true <;>
          simp [List.filter_cons, hq, hp, ih hys, insertLe, h]

theorem filter_insSort {le : α → α → Bool}
    (htrans : ∀ a b c, le a b = true → le b c = true → le a c = true)
    (htot : ∀ a b, le a b = true ∨ le b a = true)
    (p : α → Bool) (l : List α) :
    (insSort le l).filter p = insSort le (l.filter p) := by
  induction l with
  | nil => rfl
  | cons x xs ih =>
      rw [insSort, filter_insertLe htrans p x (pairwise_insSort htrans htot xs), ih]
      by_cases hp : p x = true
      · simp [List.filter_cons, hp, insSort]
      · simp [List.filter_cons, hp, insSort]

theorem insertLe_congr {le le' : α → α → Bool} (x : α) {l : List α}
    (h : ∀ b ∈ l, le x b = le' x b) : insertLe le x l = insertLe le' x l := by
  induction l with
  | nil => rfl
  | cons y ys ih =>
      have hxy := h y (by simp)
      by_cases hc : le' x y = true
      · simp [insertLe, hxy, hc]
      · simp only [insertLe, hxy, hc, if_false, Bool.false_eq_true]
        exact congrArg (y :: ·) (ih (fun b hb => h b (by simp [hb])))

theorem insSort_congr {le le' : α → α → Bool} {l : List α}
    (h : ∀ a ∈ l, ∀ b ∈ l, le a b = le' a b) : insSort le l = insSort le' l := by
  induction l with
  | nil => rfl
  | cons x xs ih =>
      rw [insSort, insSort, ih (fun a ha b hb => h a (by simp [ha]) b (by simp [hb]))]
      refine insertLe_congr x ?_
      intro b hb
      exact h x (by simp) b (by simp [(mem_insSort b xs).mp hb])

/-! ### The sort keys are total preorders -/

theorem charToNat_inj {x y : Char} (h : x.toNat = y.toNat) : x = y :=
  Char.eq_of_val_eq (UInt32.ext h)

theorem stringData_inj {s t : String} (h : s.data = t.data) : s = t := by
  cases s; cases t; exact congrArg String.mk h

theorem charsLe_total : ∀ a b : List Char, charsLe a b = true ∨ charsLe b a = true := by
  intro a
  induction a with
  | nil => intro b; left; cases b <;> rfl
  | cons x xs ih =>
      intro b
      cases b with
      | nil => right; rfl
      | cons y ys =>
          by_cases h : x.toNat = y.toNat
          · rcases ih ys with h' | h'
            · left; rw [charsLe, if_pos h]; exact h'
            · right; rw [charsLe, if_pos h.symm]; exact h'
          · rcases Nat.lt_or_ge x.toNat y.toNat with hlt | hge
            · left; rw [charsLe, if_neg h, decide_eq_true_eq]; exact hlt
            · have hlt : y.toNat < x.toNat := lt_of_le_of_ne hge (Ne.symm h)
              right; rw [charsLe, if_neg (Ne.symm h), decide_eq_true_eq]; exact hlt

theorem charsLe_trans :
    ∀ a b c : List Char, charsLe a b = true → charsLe b c = true → charsLe a c = true := by
  intro a
  induction a with
  | nil => intro b c _ _; cases c <;> simp [charsLe]
  | cons x xs ih =>
      intro b c hab hbc
      cases b with
      | nil => simp [charsLe] at hab
      | cons y ys =>
          cases c with
          | nil => simp [charsLe] at hbc
          | cons z zs =>
              by_cases h1 : x.toNat = y.toNat <;> by_cases h2 : y.toNat = z.toNat
              · rw [charsLe, if_pos h1] at hab
                rw [charsLe, if_pos h2] at hbc
                rw [charsLe, if_pos (h1.trans h2)]
                exact ih ys zs hab hbc
              · have hxz : ¬x.toNat = z.toNat := by rw [h1]; exact h2
                rw [charsLe, if_neg h2, decide_eq_true_eq] at hbc
                rw [charsLe, if_neg hxz, decide_eq_true_eq, h1]
                exact hbc
              · have hxz : ¬x.toNat = z.toNat := by rw [← h2]; exact h1
                rw [charsLe, if_neg h1, decide_eq_true_eq] at hab
                rw [charsLe, if_neg hxz, decide_eq_true_eq, ← h2]
                exact hab
              · rw [charsLe, if_neg h1, decide_eq_true_eq] at hab
                rw [charsLe, if_neg h2, decide_eq_true_eq] at hbc
                have hxz : x.toNat < z.toNat := hab.trans hbc
                rw [charsLe, if_neg (Nat.ne_of_lt hxz), decide_eq_true_eq]
                exact hxz

theorem charsLe_antisymm :
    ∀ a b : List Char, charsLe a b = true → charsLe b a = true → a = b := by
  intro a
  induction a with
  | nil => intro b _ hba; cases b with
      | nil => rfl
      | cons y ys => simp [charsLe] at hba
  | cons x xs ih =>
      intro b hab hba
      cases b with
      | nil => simp [charsLe] at hab
      | cons y ys =>
          by_cases h : x.toNat = y.toNat
          · rw [charsLe, if_pos h] at hab
            rw [charsLe, if_pos h.symm] at hba
            rw [charToNat_inj h, ih ys hab hba]
          · rw [charsLe, if_neg h, decide_eq_true_eq] at hab
            rw [charsLe, if_neg (Ne.symm h), decide_eq_true_eq] at hba
            exact absurd hba (Nat.lt_asymm hab)

theorem optDateLe_total : ∀ a b : Option CalDate, optDateLe a b = true ∨ optDateLe b a = true := by
  intro a b
  cases a <;> cases b <;> simp [optDateLe]
  exact Nat.le_total _ _

theorem optDateLe_trans : ∀ a b c : Option CalDate,
    optDateLe a b = true → optDateLe b c = true → optDateLe a c = true := by
  intro a b c hab hbc
  cases a <;> cases b <;> cases c <;> simp_all [optDateLe]
  omega

theorem keyLe_total : ∀ a b : Nat × Txn, keyLe a b = true ∨ keyLe b a = true := by
  intro a b
  by_cases h : a.2.recipient = b.2.recipient
  · rw [keyLe, if_pos h, keyLe, if_pos h.symm]
    exact optDateLe_total _ _
  · rw [keyLe, if_neg h, keyLe, if_neg (Ne.symm h)]
    exact charsLe_total _ _

theorem keyLe_trans : ∀ a b c : Nat × Txn,
    keyLe a b = true → keyLe b c = true → keyLe a c = true := by
  intro a b c hab hbc
  by_cases h1 : a.2.recipient = b.2.recipient <;> by_cases h2 : b.2.recipient = c.2.recipient
  · rw [keyLe, if_pos h1] at hab
    rw [keyLe, if_pos h2] at hbc
    rw [keyLe, if_pos (h1.trans h2)]
    exact optDateLe_trans _ _ _ hab hbc
  · have hxz : ¬a.2.recipient = c.2.recipient := by rw [h1]; exact h2
    rw [keyLe, if_neg h2] at hbc
    rw [keyLe, if_neg hxz]
    rw [show a.2.recipient = b.2.recipient from h1]
    exact hbc
  · have hxz : ¬a.2.recipient = c.2.recipient := by rw [← h2]; exact h1
    rw [keyLe, if_neg h1] at hab
    rw [keyLe, if_neg hxz]
    rw [show c.2.recipient = b.2.recipient from h2.symm]
    exact hab
  · by_cases h3 : a.2.recipient = c.2.recipient
    · exfalso
      rw [keyLe, if_neg h1] at hab
      rw [keyLe, if_neg h2] at hbc
      rw [h3] at hab
      have := charsLe_antisymm _ _ hbc hab
      exact h2 (stringData_inj this)
    · rw [keyLe, if_neg h1] at hab
      rw [keyLe, if_neg h2] at hbc
      rw [keyLe, if_neg h3]
      exact charsLe_trans _ _ _ hab hbc

theorem keyLe_eq_dateOnlyLe {a b : Nat × Txn} (h : a.2.recipient = b.2.recipient) :
    keyLe a b = dateOnlyLe a b := by
  rw [keyLe, if_pos h, dateOnlyLe]

/-- C3 amended: `flag_recurring` computes exactly the algorithm the claim
describes — group by `recipient`, sort each group by `date`, flag gaps to
the group predecessor, OR with the marker rule, in original row order, the
first row of each group never flagged by the gap rule — except that the
gap window is inclusive at BOTH ends, `[27, 33]`, because pandas
`between(27, 33)` defaults to `inclusive='both'`. -/
theorem flag_recurring_eq_descr (txns : List Txn) :
    flag_recurring txns = flag_recurring_descr inWindowIncl txns := by
  unfold flag_recurring flag_recurring_descr
  refine List.map_congr_left ?_
  intro it _
  have hf : (insSort keyLe txns.enum).filter (fun jt => jt.2.recipient == it.2.recipient)
      = insSort dateOnlyLe (txns.enum.filter (fun jt => jt.2.recipient == it.2.recipient)) := by
    rw [filter_insSort keyLe_trans keyLe_total]
    refine insSort_congr ?_
    intro a ha b hb
    have ha' : a.2.recipient = it.2.recipient := by
      have := (List.mem_filter.mp ha).2
      exact eq_of_beq (by simpa using this)
    have hb' : b.2.recipient = it.2.recipient := by
      have := (List.mem_filter.mp hb).2
      exact eq_of_beq (by simpa using this)
    exact keyLe_eq_dateOnlyLe (ha'.trans hb'.symm)
  rw [hf]

/-! ### The rule engine: last declared match wins -/

theorem stepRule_description (t : Txn) (r : Rule) :
    (stepRule t r).description = t.description := by
  rw [stepRule]
  by_cases h : ruleMatches r t = true <;> simp [h]

theorem ruleMatches_congr {t u : Txn} (h : t.description = u.description) (r : Rule) :
    ruleMatches r t = ruleMatches r u := by
  simp [ruleMatches, h]

theorem lastMatchingRule_congr {t u : Txn} (h : t.description = u.description)
    (rules : List Rule) : lastMatchingRule rules t = lastMatchingRule rules u := by
  have he : (fun (a : Option Rule) r => if ruleMatches r t then some r else a)
      = (fun (a : Option Rule) r => if ruleMatches r u then some r else a) := by
    funext a r
    rw [ruleMatches_congr h]
  rw [lastMatchingRule, lastMatchingRule, he]

theorem foldl_lastMatch_acc (t : Txn) : ∀ (rs : List Rule) (acc : Option Rule),
    rs.foldl (fun a r => if ruleMatches r t then some r else a) acc =
      match lastMatchingRule rs t with
      | some r => some r
      | none => acc := by
  intro rs
  induction rs with
  | nil => intro acc; rfl
  | cons r rs ih =>
      intro acc
      have hL : lastMatchingRule (r :: rs) t =
          match lastMatchingRule rs t with
          | some q => some q
          | none => if ruleMatches r t then some r else none := by
        rw [lastMatchingRule, List.foldl_cons]
        exact ih _
      rw [List.foldl_cons, ih _, hL]
      cases hm : lastMatchingRule rs t with
      | some q => rfl
      | none => by_cases h : ruleMatches r t = true <;> simp [h]

theorem foldl_stepRule_description (rs : List Rule) : ∀ t0 : Txn,
    (rs.foldl stepRule t0).description = t0.description := by
  induction rs with
  | nil => intro t0; rfl
  | cons r rs ih =>
      intro t0
      rw [List.foldl_cons, ih (stepRule t0 r), stepRule_description]

theorem foldl_stepRule_label (rs : List Rule) : ∀ t0 : Txn,
    ((rs.foldl stepRule t0).concept, (rs.foldl stepRule t0).is_essential) =
      match lastMatchingRule rs t0 with
      | some r => (r.concept, r.is_essential)
      | none => (t0.concept, t0.is_essential) := by
  induction rs with
  | nil => intro t0; rfl
  | cons r rs ih =>
      intro t0
      have hL : lastMatchingRule (r :: rs) t0 =
          match lastMatchingRule rs t0 with
          | some q => some q
          | none => if ruleMatches r t0 then some r else none := by
        rw [lastMatchingRule, List.foldl_cons]
        exact foldl_lastMatch_acc t0 rs _
      rw [List.foldl_cons, ih (stepRule t0 r),
        lastMatchingRule_congr (stepRule_description t0 r), hL]
      cases hm : lastMatchingRule rs t0 with
      | some q => rfl
      | none =>
          by_cases h : ruleMatches r t0 = true <;> simp [stepRule, h]

theorem foldl_applyRule_eq_map (rules : List Rule) (l : List Txn) :
    rules.foldl (fun acc r => applyRule r acc) l =
      l.map (fun t => rules.foldl stepRule t) := by
  induction rules generalizing l with
  | nil => simp
  | cons r rs ih =>
      rw [List.foldl_cons, ih, applyRule, List.map_map]
      rfl

theorem map_zip_update {β : Type} (g : Txn → β)
    (hg : ∀ t b, g { t with is_recurring := b } = g t) :
    ∀ (ts : List Txn) (bs : List Bool), ts.length = bs.length →
      (ts.zip bs).map (fun tr => g { tr.1 with is_recurring := tr.2 }) = ts.map g := by
  intro ts
  induction ts with
  | nil => intro bs _; simp
  | cons t ts ih =>
      intro bs h
      cases bs with
      | nil => simp at h
      | cons b bs =>
          rw [List.zip_cons_cons, List.map_cons, List.map_cons, hg t b,
            ih bs (by simpa using h)]

theorem flag_recurring_length (txns : List Txn) :
    txns.length = (flag_recurring txns).length := by
  simp [flag_recurring]

/-! ### Batch reading: column truncation and csv filtering -/

theorem mapM_ok_of_forall {α β : Type} (f : α → Except String β) (g : α → β) :
    ∀ l : List α, (∀ x ∈ l, f x = .ok (g x)) → l.mapM f = .ok (l.map g) := by
  intro l
  induction l with
  | nil => intro _; rfl
  | cons x xs ih =>
      intro h
      rw [List.mapM_cons, h x (by simp), ih (fun y hy => h y (by simp [hy]))]
      rfl

/-- C10: with a nonempty set of pending `.csv` files each at least as wide
as the first pending file's header, and whose first-`ncols` column names
agree, the concatenated batch keeps, for every `.csv` file, exactly its
records truncated to the first file's column count (extra columns are
silently dropped), and non-`.csv` pending files contribute no rows at
all. -/
theorem batchConcat_truncates (f0 : RawFile) (rest : List RawFile) (H : List String)
    (hne : (f0 :: rest).filter (fun rf => strEndsWith rf.name ".csv") ≠ [])
    (hwide : ∀ rf ∈ (f0 :: rest).filter (fun rf => strEndsWith rf.name ".csv"),
      f0.header.length ≤ rf.header.length)
    (hhdr : ∀ rf ∈ (f0 :: rest).filter (fun rf => strEndsWith rf.name ".csv"),
      rf.header.take f0.header.length = H) :
    batchConcat (f0 :: rest) =
      .ok ⟨H, (((f0 :: rest).filter (fun rf => strEndsWith rf.name ".csv")).map
        (fun rf => rf.records.map (fun r => r.take f0.header.length))).flatten⟩ := by
  have hok : ∀ rf ∈ (f0 :: rest).filter (fun rf => strEndsWith rf.name ".csv"),
      read_csv_usecols rf f0.header.length =
        .ok ⟨rf.header.take f0.header.length,
          rf.records.map (fun r => r.take f0.header.length)⟩ := by
    intro rf hrf
    rw [read_csv_usecols, if_neg (not_lt.mpr (hwide rf hrf))]
  have hmap := mapM_ok_of_forall (fun rf => read_csv_usecols rf f0.header.length)
    (fun rf => (⟨rf.header.take f0.header.length,
      rf.records.map (fun r => r.take f0.header.length)⟩ : Frame))
    ((f0 :: rest).filter (fun rf => strEndsWith rf.name ".csv")) hok
  show ((f0 :: rest).filter (fun rf => strEndsWith rf.name ".csv")).mapM
      (fun rf => read_csv_usecols rf f0.header.length) >>= concatFrames = _
  rw [hmap]
  show concatFrames _ = _
  cases hcs : (f0 :: rest).filter (fun rf => strEndsWith rf.name ".csv") with
  | nil => exact absurd hcs hne
  | cons c cs =>
      rw [List.map_cons, concatFrames]
      have hc : c.header.take f0.header.length = H := hhdr c (by rw [hcs]; simp)
      rw [if_pos ?hall]
      case hall =>
        rw [List.all_eq_true]
        intro fr hfr
        rcases List.mem_map.mp hfr with ⟨rf, hrf, rfl⟩
        have : rf.header.take f0.header.length = H := hhdr rf (by rw [hcs]; simp [hrf])
        simp [this, hc]
      simp only [List.map_cons, List.map_map, hc, List.flatten_cons]
      congr 2

/-- C4: `apply_fixed_rules` labels every transaction with the `concept` and
`is_essential` of the LAST rule, in the fixed declared order, whose
keyword list has a member occurring in the case-folded description
(`predictedLabel`), and with `("Others", false)` when no rule matches. -/
theorem apply_fixed_rules_last_match (txns : List Txn) :
    (apply_fixed_rules txns).map (fun t => (t.concept, t.is_essential)) =
      txns.map predictedLabel := by
  unfold apply_fixed_rules
  rw [foldl_applyRule_eq_map, List.map_map, List.map_map, List.map_map]
  refine Eq.trans
    (map_zip_update
      (fun u => ((fixed_rules.foldl stepRule
          { u with is_essential := false, concept := "Others" }).concept,
        (fixed_rules.foldl stepRule
          { u with is_essential := false, concept := "Others" }).is_essential))
      ?hg txns (flag_recurring txns) (flag_recurring_length txns)) ?rest
  case hg =>
    intro t b
    show ((fixed_rules.foldl stepRule { t with is_recurring := b, is_essential := false, concept := "Others" }).concept, (fixed_rules.foldl stepRule { t with is_recurring := b, is_essential := false, concept := "Others" }).is_essential) = ((fixed_rules.foldl stepRule { t with is_essential := false, concept := "Others" }).concept, (fixed_rules.foldl stepRule { t with is_essential := false, concept := "Others" }).is_essential)
    rw [foldl_stepRule_label, foldl_stepRule_label]
    have hd : ({ t with is_recurring := b, is_essential := false, concept := "Others" } : Txn).description = ({ t with is_essential := false, concept := "Others" } : Txn).description := rfl
    rw [lastMatchingRule_congr hd]
  case rest =>
    refine List.map_congr_left ?_
    intro t _
    show ((fixed_rules.foldl stepRule { t with is_essential := false, concept := "Others" }).concept, (fixed_rules.foldl stepRule { t with is_essential := false, concept := "Others" }).is_essential) = predictedLabel t
    rw [foldl_stepRule_label]
    have hd : ({ t with is_essential := false, concept := "Others" } : Txn).description
        = t.description := rfl
    rw [lastMatchingRule_congr hd, predictedLabel]

/-- C5: `get_files` with `reprocess=True`, or with no register file,
returns all listed files with an empty register; with `reprocess=False`
and a register present it returns exactly the listed files absent from the
register's keys (in listing order), paired with the loaded register. -/
theorem get_files_pending_spec (F : List String) (R : Register) :
    get_files true F (some R) = (F, []) ∧
    get_files true F none = (F, []) ∧
    get_files false F none = (F, []) ∧
    (get_files false F (some R)).2 = R ∧
    (get_files false F (some R)).1 = F.filter (fun f => decide (f ∉ registerKeys R)) ∧
    ∀ f, f ∈ (get_files false F (some R)).1 ↔ f ∈ F ∧ f ∉ registerKeys R := by
  refine ⟨rfl, rfl, rfl, rfl, ?_, ?_⟩
  · simp [get_files]
  · intro f
    simp [get_files]

/-- C9: `flag_recurring` does not mutate its argument: line 19 copies the
frame, so the caller-visible final value of the input equals the input,
and only the returned series carries the flags. -/
theorem flag_recurring_run_id (input : List Txn) :
    (flag_recurring_run input).1 = input ∧
    (flag_recurring_run input).2 = flag_recurring input := by
  refine ⟨rfl, ?_⟩
  show flag_recurring (input.map (fun t => { t with date := t.date })) = flag_recurring input
  exact congrArg flag_recurring (List.map_id input)

/-- C1 (code bug): on an incremental (non-reprocess) run, `preprocessing`
persists `load()` of the old table — which keeps only `General` rows —
concatenated with the new batch, so the previously persisted `Savings` row
of `stC1` is silently dropped from the table that is written back. -/
theorem preprocessing_drops_savings_rows :
    preprocessing false "56" "99" "TS" stC1 =
      .ok ⟨[fileA], some [("a.csv", "TS")], some [genRow, rentRow]⟩ ∧
    savRow ∈ (stC1.transactionsFile.getD []) ∧
    savRow ∉ [genRow, rentRow] := by
  refine ⟨by rfl, by decide, by decide⟩

/-- C7 (code bug): a batch whose observed dates contain no month-end grid
point yields an empty `observed_cumulative`, and line 61's
`observed_cumulative.iloc[0]` raises before line 91's emptiness guard can
apply; an empty batch already makes `pd.date_range` raise on `NaT`
bounds.  The claim's graceful degradation never happens. -/
theorem sarima_pre_raises_on_degenerate_input :
    sarima_pre [(⟨2026, 1, 15⟩, 100)] =
      .error "IndexError: single positional indexer is out-of-bounds" ∧
    observedCumulative [] = .error "ValueError: Neither start nor end can be NaT" ∧
    sarima_pre [] = .error "ValueError: Neither start nor end can be NaT" :=
  ⟨rfl, rfl, rfl⟩

/-- C2 counterexample: on the spec's own two-transaction example at
monthly (`'ME'`) frequency the code produces the single grid point
2026-01-31 with value 0.0 — `reindex` drops the off-grid observations and
`ffill` runs along the grid only — while the claim's forward-fill reading
(and its expected `[5000 @ Jan, 3500 @ Feb]`) predicts otherwise. -/
theorem observedCumulative_not_forward_filled :
    observedCumulative exData = .ok [(⟨2026, 1, 31⟩, 0)] ∧
    observedCumulative_claimed exData = .ok [(⟨2026, 1, 31⟩, 5000)] ∧
    ([((⟨2026, 1, 31⟩ : CalDate), (0 : Int))] ≠ [((⟨2026, 1, 31⟩ : CalDate), (5000 : Int))]) ∧
    ((observedCumulative exData).toOption.getD []).map (·.2) ≠ [5000, 3500] := by
  refine ⟨rfl, rfl, by decide, by decide⟩

/-- C3 counterexample: two transactions to the same recipient exactly 33
days apart: `between(27, 33)` is inclusive at both ends, so the code flags
the second one, while the claim's half-open window `[27, 33)` says no
transaction is flagged. -/
theorem flag_recurring_gap33_flagged :
    flag_recurring [txX1, txX2] = [false, true] ∧
    flag_recurring_descr inWindowClaimed [txX1, txX2] = [false, false] ∧
    flag_recurring [txX1, txX2] ≠ flag_recurring_descr inWindowClaimed [txX1, txX2] := by
  refine ⟨by decide, by decide, by decide⟩

/-- C6 amended: the register is written only in the success case of a run
with pending files — an aborted run leaves it untouched, by construction
of the transition — and the register written then is the input register
(empty under `reprocess`) with EVERY pending filename merged, whether or
not that file was a `.csv` whose data was parsed and persisted. -/
theorem preprocessing_commits_all_pending (reprocess : Bool) (genSuf savSuf ts : String)
    (st st' : SysState)
    (h : preprocessing reprocess genSuf savSuf ts st = .ok st')
    (hne : pendingFiles reprocess st ≠ []) :
    st'.registerFile = some (((pendingFiles reprocess st).map RawFile.name).foldl
      (fun r n => insertRegister r n ts)
      (get_files reprocess (st.rawFiles.map RawFile.name) st.registerFile).2) := by
  unfold preprocessing at h
  split at h
  · next heq => exact absurd heq hne
  · next f0 rest heq =>
      split at h
      · exact Except.noConfusion h
      · split at h
        · exact Except.noConfusion h
        · split at h
          · exact Except.noConfusion h
          · cases h
            rw [heq]

/-- C10 witness: a concrete batch whose second csv file has one column
more than the first file's header; the result keeps exactly the first
three columns of each csv file, and the `.txt` file contributes nothing. -/
theorem batchConcat_truncates_witness :
    batchConcat [fileW3, fileW4, fileWt] =
      .ok ⟨["A", "B", "C"], [["1", "2", "3"], ["4", "5", "6"]]⟩ := by
  have h := batchConcat_truncates fileW3 [fileW4, fileWt] ["A", "B", "C"]
    (by decide) (by decide) (by decide)
  exact h

/-- C6 witness: the amended commit rule applied to the concrete state with
pending files `a.csv` and `b.txt`. -/
theorem preprocessing_commits_all_pending_witness :
    (⟨[fileA, fileB], some [("a.csv", "TS"), ("b.txt", "TS")], some [rentRow]⟩ : SysState).registerFile =
      some (((pendingFiles false stC6).map RawFile.name).foldl
        (fun r n => insertRegister r n "TS")
        (get_files false (stC6.rawFiles.map RawFile.name) stC6.registerFile).2) :=
  preprocessing_commits_all_pending false "56" "99" "TS" stC6
    ⟨[fileA, fileB], some [("a.csv", "TS"), ("b.txt", "TS")], some [rentRow]⟩
    (by rfl) (by decide)

/-! ### The resampling characterization -/

theorem ffillGo_resampleSpecGo (s : List (CalDate × Int)) :
    ∀ (grid : List CalDate) (seen : List CalDate),
      ffillGo (firstSome (seen.reverse.map (lookupDate s))) (reindexGrid s grid) =
        resampleSpecGo s seen grid := by
  intro grid
  induction grid with
  | nil => intro seen; rfl
  | cons g rest ih =>
      intro seen
      have hsg : (seen ++ [g]).reverse.map (lookupDate s)
          = lookupDate s g :: seen.reverse.map (lookupDate s) := by
        simp
      show ffillGo _ ((g, lookupDate s g) :: reindexGrid s rest) = _
      rw [resampleSpecGo, hsg]
      cases hv : lookupDate s g with
      | some x =>
          simp only [ffillGo, hv, firstSome, optOr]
          refine congrArg _ ?_
          have htail := ih (seen ++ [g])
          rw [hsg, hv] at htail
          simpa only [firstSome, optOr] using htail
      | none =>
          simp only [ffillGo, hv, firstSome, optOr]
          refine congrArg _ ?_
          have htail := ih (seen ++ [g])
          rw [hsg, hv] at htail
          simpa only [firstSome, optOr] using htail

/-- C2 amended: `observed_cumulative` is the grid-aligned resampling: on
the month-end grid spanning the observed min/max date, each grid point
takes the balance observed EXACTLY at the latest grid date up to it that
coincides with an observed date (observations between grid points are
dropped by `reindex`, and `ffill` only propagates along the grid), with 0.0
where no grid-aligned observation has occurred yet. -/
theorem observedCumulative_grid_aligned (data : List (CalDate × Int))
    (f l : CalDate × Int)
    (hf : (balanceSeries data).head? = some f)
    (hl : (balanceSeries data).getLast? = some l) :
    observedCumulative data =
      .ok (resampleSpec (balanceSeries data) (dateRangeME f.1 l.1)) := by
  unfold observedCumulative
  rw [hf, hl]
  show Except.ok (fill0 (ffillGo none (reindexGrid (balanceSeries data)
    (dateRangeME f.1 l.1)))) = _
  rw [resampleSpec]
  exact congrArg (fun w => Except.ok (fill0 w))
    (ffillGo_resampleSpecGo (balanceSeries data) (dateRangeME f.1 l.1) [])

/-- C2 witness: the amended characterization applied to the spec's
two-transaction example. -/
theorem observedCumulative_grid_aligned_witness :
    observedCumulative exData =
      .ok (resampleSpec (balanceSeries exData) (dateRangeME ⟨2026, 1, 1⟩ ⟨2026, 2, 1⟩)) :=
  observedCumulative_grid_aligned exData (⟨2026, 1, 1⟩, 5000) (⟨2026, 2, 1⟩, 3500)
    (by decide) (by decide)

/-- C6 counterexample: a successful run whose pending files are `a.csv`
and the never-parsed `b.txt` commits BOTH filenames to the register, while
the persisted rows all come from `a.csv` alone. -/
theorem preprocessing_registers_unparsed_file :
    preprocessing false "56" "99" "TS" stC6 =
      .ok ⟨[fileA, fileB], some [("a.csv", "TS"), ("b.txt", "TS")], some [rentRow]⟩ ∧
    "b.txt" ∈ registerKeys [("a.csv", "TS"), ("b.txt", "TS")] ∧
    ∀ t ∈ [rentRow], t.description ≠ "junkrow" := by
  refine ⟨by rfl, by decide, by decide⟩

end PFM
